import Mathlib

/-
Verification of the tree-rewrite engine of pyRavenMatrices
(src/RavenStyleMatrixProblems/transformation.py).

The element data model (module `element`: ElementNode, Element,
ElementModifier, BasicElement, EmptyElement, ModifiedElement,
CompositeElement) is imported by transformation.py but its source is not
part of the repository snapshot, so the data model below is modelled from
the specification. The operations `transform`, `add`, `remove`, `replace`
and the class `Transformation` are embedded directly from
transformation.py, including its exact argument order and branch
structure.
-/

namespace PyRaven

/-- Modelled from the spec: the missing module `element` defines the node
family of figure trees. The closed set of variants is EmptyElement,
BasicElement (an opaque leaf primitive, identified here by a number),
CompositeElement (an ordered sequence of children), ModifiedElement (a
base plus an ordered sequence of modifiers), and ElementModifier (a
distinct atomic decoration family, identified here by a number). All
variants share the common superclass ElementNode, which this single
inductive type plays the role of; equality between nodes is deep
structural equality. -/
inductive ENode where
  | empty : ENode
  | basic : Nat → ENode
  | composite : List ENode → ENode
  | modified : ENode → List ENode → ENode
  | modifier : Nat → ENode

mutual

/-- Deep structural equality on nodes is decidable. -/
def decEqENode : (a b : ENode) → Decidable (a = b)
  | .empty, .empty => .isTrue rfl
  | .basic x, .basic y =>
    match Nat.decEq x y with
    | .isTrue h => .isTrue (by rw [h])
    | .isFalse h => .isFalse (by intro hh; injection hh; contradiction)
  | .modifier x, .modifier y =>
    match Nat.decEq x y with
    | .isTrue h => .isTrue (by rw [h])
    | .isFalse h => .isFalse (by intro hh; injection hh; contradiction)
  | .composite xs, .composite ys =>
    match decEqENodeList xs ys with
    | .isTrue h => .isTrue (by rw [h])
    | .isFalse h => .isFalse (by intro hh; injection hh; contradiction)
  | .modified b1 m1, .modified b2 m2 =>
    match decEqENode b1 b2, decEqENodeList m1 m2 with
    | .isTrue h1, .isTrue h2 => .isTrue (by rw [h1, h2])
    | .isFalse h1, _ => .isFalse (by intro hh; injection hh; contradiction)
    | _, .isFalse h2 => .isFalse (by intro hh; injection hh; contradiction)
  | .empty, .basic _ => .isFalse (fun h => ENode.noConfusion h)
  | .empty, .composite _ => .isFalse (fun h => ENode.noConfusion h)
  | .empty, .modified _ _ => .isFalse (fun h => ENode.noConfusion h)
  | .empty, .modifier _ => .isFalse (fun h => ENode.noConfusion h)
  | .basic _, .empty => .isFalse (fun h => ENode.noConfusion h)
  | .basic _, .composite _ => .isFalse (fun h => ENode.noConfusion h)
  | .basic _, .modified _ _ => .isFalse (fun h => ENode.noConfusion h)
  | .basic _, .modifier _ => .isFalse (fun h => ENode.noConfusion h)
  | .composite _, .empty => .isFalse (fun h => ENode.noConfusion h)
  | .composite _, .basic _ => .isFalse (fun h => ENode.noConfusion h)
  | .composite _, .modified _ _ => .isFalse (fun h => ENode.noConfusion h)
  | .composite _, .modifier _ => .isFalse (fun h => ENode.noConfusion h)
  | .modified _ _, .empty => .isFalse (fun h => ENode.noConfusion h)
  | .modified _ _, .basic _ => .isFalse (fun h => ENode.noConfusion h)
  | .modified _ _, .composite _ => .isFalse (fun h => ENode.noConfusion h)
  | .modified _ _, .modifier _ => .isFalse (fun h => ENode.noConfusion h)
  | .modifier _, .empty => .isFalse (fun h => ENode.noConfusion h)
  | .modifier _, .basic _ => .isFalse (fun h => ENode.noConfusion h)
  | .modifier _, .composite _ => .isFalse (fun h => ENode.noConfusion h)
  | .modifier _, .modified _ _ => .isFalse (fun h => ENode.noConfusion h)

/-- Decidable equality of node lists, mutually with `decEqENode`. -/
def decEqENodeList : (as bs : List ENode) → Decidable (as = bs)
  | [], [] => .isTrue rfl
  | [], _ :: _ => .isFalse (fun h => List.noConfusion h)
  | _ :: _, [] => .isFalse (fun h => List.noConfusion h)
  | a :: as, b :: bs =>
    match decEqENode a b, decEqENodeList as bs with
    | .isTrue h1, .isTrue h2 => .isTrue (by rw [h1, h2])
    | .isFalse h1, _ => .isFalse (by intro hh; injection hh; contradiction)
    | _, .isFalse h2 => .isFalse (by intro hh; injection hh; contradiction)

end

instance : DecidableEq ENode := decEqENode

/-- Modelled from the spec: `isinstance(x, Element)` for the missing
`element` module. BasicElement, CompositeElement and ModifiedElement are
instances of Element; EmptyElement and ElementModifier are not (the spec
on `replace` states that for EmptyElement neither family check applies). -/
def isElement : ENode → Bool
  | .basic _ => true
  | .composite _ => true
  | .modified _ _ => true
  | .empty => false
  | .modifier _ => false

/-- Modelled from the spec: `isinstance(x, ElementModifier)`. -/
def isModifier : ENode → Bool
  | .modifier _ => true
  | _ => false

/-- Modelled from the spec: `isinstance(x, BasicElement)`. -/
def isBasic : ENode → Bool
  | .basic _ => true
  | _ => false

/-- Modelled from the spec: `isinstance(x, CompositeElement)`. -/
def isComposite : ENode → Bool
  | .composite _ => true
  | _ => false

/-- Modelled from the spec: `isinstance(x, ModifiedElement)`. -/
def isModified : ENode → Bool
  | .modified _ _ => true
  | _ => false

/-- Modelled from the spec: Python truthiness of a node. EmptyElement is
falsy (the collapse rules of the spec filter out results that are
empty/falsy); every other node is truthy. -/
def truthyNode : ENode → Bool
  | .empty => false
  | _ => true

/-- Python truthiness of a value that may also be None: None is falsy,
a node is as truthy as `truthyNode` says. -/
def truthy : Option ENode → Bool
  | none => false
  | some n => truthyNode n

/-- Exceptions that the embedded code can raise: TypeError is raised by
`replace` on a family mismatch and by calling a non-callable value;
AttributeError by reading an attribute that was never assigned;
NameError by referring to an undefined global name. -/
inductive PyErr where
  | typeError : PyErr
  | attributeError : PyErr
  | nameError : PyErr
  deriving DecidableEq, Repr

/-- An operation passed to `transform`: in the source it is a callable
applied as `op(element, *args, **kwargs)`; the extra arguments are
captured in the closure here. It returns a node or raises. -/
def Op : Type := ENode → Except PyErr ENode

/-- A Python value flowing through the dynamically typed `transform`: the
recursive calls in the source pass the callable `op` in the element
position, so a parameter may hold either a tree node or a callable. -/
inductive PyVal where
  | node : ENode → PyVal
  | func : Op → PyVal

/-- Embeds `add` (transformation.py lines 127-156). The source deep-copies
`element` into `output` first; in this pure tree model the copy is the
value itself. The dispatch cascade is reproduced branch for branch. -/
def add (element addition : ENode) : ENode :=
  let output := element
  if (isBasic output || isModified output) && isElement addition then
    .composite [output, addition]
  else if (isBasic output || isComposite output) && isModifier addition then
    .modified output [addition]
  else if isComposite output && isElement addition then
    match output with
    | .composite cs => .composite (cs ++ [addition])
    | _ => output
  else if isModified output && isModifier addition then
    match output with
    | .modified b ms => .modified b (ms ++ [addition])
    | _ => output
  else
    output

/-- Embeds `remove` (transformation.py lines 159-162): unconditionally
returns a fresh EmptyElement. -/
def remove (_ : ENode) : ENode := .empty

/-- Embeds `replace` (transformation.py lines 165-187): raises TypeError
when `element` is an Element but `replacement` is not, or when `element`
is an ElementModifier but `replacement` is not; otherwise returns
`replacement` itself. -/
def replace (element replacement : ENode) : Except PyErr ENode :=
  if isElement element && !isElement replacement then
    .error .typeError
  else if isModifier element && !isModifier replacement then
    .error .typeError
  else
    .ok replacement

/-- Size of a list is positive, used for termination of `transform`. -/
theorem sizeOf_enl_pos (l : List ENode) : 0 < sizeOf l := by
  cases l <;> simp_arith

mutual

/-- Embeds `transform` (transformation.py lines 66-124). The result type
records that the function can raise (from `op` or from calling a value
that is not callable) and that it can fall off the end of the if/elif
chain, which in Python returns None. The source checks `element == loc`
first and applies `op` on a match; otherwise it dispatches on the runtime
type of `element`. The recursive calls reproduce the argument order of
the source verbatim: `transform(op, element.element, loc, ...)` and
`transform(op, mod, loc, ...)` place the callable `op` in the element
position and the child node in the op position. A callable compares
unequal to any node and is an instance of none of the dispatched classes,
so it falls through every branch and yields None. -/
def transform (element op : PyVal) (loc : ENode) : Except PyErr (Option ENode) :=
  match element with
  | .func _ => .ok none
  | .node n =>
    if n = loc then
      match op with
      | .func f => (f n).map some
      | .node _ => .error .typeError
    else
      match n with
      | .basic s => .ok (some (.basic s))
      | .modifier m => .ok (some (.modifier m))
      | .modified base mods =>
        match transform op (.node base) loc with
        | .error e => .error e
        | .ok newSub =>
          match transformEach op mods loc with
          | .error e => .error e
          | .ok raw =>
            let newMods := raw.filterMap (fun r => if truthy r then r else none)
            match newSub with
            | some b =>
              if truthyNode b then
                if newMods.isEmpty then .ok (some b)
                else .ok (some (.modified b newMods))
              else .ok (some .empty)
            | none => .ok (some .empty)
      | .composite elts =>
        match transformEach op elts loc with
        | .error e => .error e
        | .ok raw =>
          let newElts := raw.filterMap (fun r => if truthy r then r else none)
          if newElts.length > 1 then .ok (some (.composite newElts))
          else
            match newElts with
            | [x] => .ok (some x)
            | _ => .ok (some .empty)
      | .empty => .ok none
termination_by sizeOf element + sizeOf op

/-- Runs the generator expressions of the ModifiedElement and
CompositeElement branches: each child `c` is fed to the recursive call
`transform(op, c, loc, ...)` in source order, with any exception
propagating out of the comprehension; the truthiness filter is applied by
the caller. -/
def transformEach (op : PyVal) (l : List ENode) (loc : ENode) :
    Except PyErr (List (Option ENode)) :=
  match l with
  | [] => .ok []
  | c :: cs =>
    match transform op (.node c) loc with
    | .error e => .error e
    | .ok r =>
      match transformEach op cs loc with
      | .error e => .error e
      | .ok rs => .ok (r :: rs)
termination_by sizeOf op + sizeOf l
decreasing_by
  all_goals simp_wf
  all_goals (have h := sizeOf_enl_pos cs; omega)

end

mutual

/-- Modelled from the spec: the subtree-enumeration operation of the
missing `element` module yields every node reachable from the root by
descending into composite children and modified bases and modifiers;
`occursIn loc t` decides whether `loc` is structurally equal to one of
the subtrees of `t`, which is the containment test
`condition in get_subtrees(tree)` of the spec. -/
def occursIn (loc : ENode) : ENode → Bool
  | .empty => loc = .empty
  | .basic s => loc = .basic s
  | .modifier m => loc = .modifier m
  | .composite cs => loc = .composite cs || occursInEach loc cs
  | .modified b ms => loc = .modified b ms || occursIn loc b || occursInEach loc ms

/-- Containment of `loc` among the subtrees of any node of a list,
mutually with `occursIn`. -/
def occursInEach (loc : ENode) : List ENode → Bool
  | [] => false
  | c :: cs => occursIn loc c || occursInEach loc cs

end

/-- An action tuple `(op, loc, *args)` of a Transformation pair; the
extra arguments are captured inside the operation closure. -/
def Action : Type := PyVal × ENode

/-- Embeds the class `Transformation` (transformation.py lines 36-63).
Its `__init__` stores the (condition, action) pairs in the attribute
`pairs` and assigns no other attribute. -/
structure Transformation where
  pairs : List (ENode × Action)

/-- Attribute lookup `self.args` performed by `Transformation.__call__`:
`__init__` assigns only `self.pairs`, so the lookup raises
AttributeError on every instance. -/
def Transformation.getAttrArgs (_ : Transformation) :
    Except PyErr (List (ENode × Action)) :=
  .error .attributeError

/-- Embeds `Transformation.__call__` (transformation.py lines 55-62): it
deep-copies the element into `output`, then iterates over `self.args`.
That attribute read raises before the loop body can run; had it
succeeded, the first iteration would evaluate `get_subtrees`, a name that
is neither defined nor imported in the module, raising NameError. -/
def Transformation.call (t : Transformation) (element : ENode) :
    Except PyErr ENode :=
  let output := element
  match t.getAttrArgs with
  | .error e => .error e
  | .ok pairs =>
    match pairs with
    | [] => .ok output
    | _ :: _ => .error .nameError

/-- The removal operation wrapped as a callable for `transform`, applied
as `op(element)` with no extra arguments. -/
def opRemove : PyVal := .func (fun n => .ok (remove n))

/-- C1. The identity law fails on the code: for the tree
Composite(Basic 0, Basic 1) and the locus Basic 2, the locus occurs
nowhere among the subtrees of the tree, yet `transform` returns
EmptyElement instead of the original tree, because the recursive calls
pass the callable `op` in the element position so every child transforms
to None and is filtered away. -/
theorem transform_identity_law_fails :
    occursIn (.basic 2) (.composite [.basic 0, .basic 1]) = false ∧
    transform (.node (.composite [.basic 0, .basic 1])) opRemove (.basic 2)
      = .ok (some .empty) ∧
    ENode.composite [.basic 0, .basic 1] ≠ ENode.empty := by
  refine ⟨?_, ?_, ?_⟩
  · simp [occursIn, occursInEach]
  · simp [transform, transformEach, truthy, truthyNode, opRemove]
  · decide

/-- C2. The CompositeElement branch does not recursively transform the
children as claimed: for Composite(Basic 0, Basic 1, Basic 2) with locus
Basic 0 and the removal operation, the claim predicts that the matched
child Basic 0 is removed and the two surviving children are kept, giving
Composite(Basic 1, Basic 2); the code instead yields EmptyElement,
because each recursive call receives the callable in the element
position, returns None, and is filtered out, leaving zero survivors. -/
theorem transform_composite_branch_fails :
    transform (.node (.composite [.basic 0, .basic 1, .basic 2])) opRemove (.basic 0)
      = .ok (some .empty) ∧
    transform (.node (.composite [.basic 0, .basic 1, .basic 2])) opRemove (.basic 0)
      ≠ .ok (some (.composite [.basic 1, .basic 2])) := by
  have h : transform (.node (.composite [.basic 0, .basic 1, .basic 2])) opRemove (.basic 0)
      = .ok (some .empty) := by
    simp [transform, transformEach, truthy, truthyNode, opRemove]
  refine ⟨h, ?_⟩
  rw [h]
  intro hc
  injection hc with hc
  injection hc with hc
  exact ENode.noConfusion hc

/-- C3. The ModifiedElement branch does not recursively transform the
base and the modifiers as claimed: for Modified(Basic 0, Modifier 7)
with the absent locus Basic 9, the claim predicts that base and modifier
both survive unchanged, so the node is rebuilt intact; the code instead
yields EmptyElement, because the recursive call for the base receives
the callable in the element position and returns None, which is falsy,
so the whole node collapses. -/
theorem transform_modified_branch_fails :
    transform (.node (.modified (.basic 0) [.modifier 7])) opRemove (.basic 9)
      = .ok (some .empty) ∧
    ENode.modified (.basic 0) [.modifier 7] ≠ ENode.empty := by
  constructor
  · simp [transform, transformEach, truthy, truthyNode, opRemove]
  · decide

/-- C4. When the element is structurally equal to the locus, `transform`
applies `op` to it and returns that result immediately: the result is
exactly the value of `op` on the matched node (wrapped as a present
value, with any exception propagated), and no recursive traversal of the
matched subtree takes place. -/
theorem transform_applies_op_at_match (n : ENode) (f : Op) :
    transform (.node n) (.func f) n = (f n).map some := by
  rw [transform.eq_def]
  simp

/-- C5. Applying a Transformation never folds over its pairs: `__init__`
stores the pairs in the attribute `pairs`, while `__call__` iterates over
`self.args`, an attribute that is never assigned, so every application
raises AttributeError before any condition is tested or any transform
runs. -/
theorem transformation_call_always_raises (t : Transformation) (e : ENode) :
    t.call e = .error .attributeError := rfl

/-- C6. The family check of `replace`: it raises TypeError exactly when
the element is an Element and the replacement is not, or the element is
an ElementModifier and the replacement is not; in every other case it
returns the replacement itself, and in particular an EmptyElement target
passes neither family check, so any replacement succeeds. -/
theorem replace_family_check (E R : ENode) :
    (replace E R = .error .typeError ↔
      (isElement E = true ∧ isElement R = false) ∨
      (isModifier E = true ∧ isModifier R = false)) ∧
    (replace E R = .error .typeError ∨ replace E R = .ok R) ∧
    replace ENode.empty R = .ok R := by
  cases E <;> cases R <;> simp [replace, isElement, isModifier]

/-- C7. The dispatch table of `add`: a Basic or Modified target with an
Element addition becomes a two-child Composite in target-addition order;
a Basic or Composite target with an ElementModifier addition becomes a
Modified with that single modifier; a Composite target with an Element
addition appends the addition to the children; a Modified target with an
ElementModifier addition appends the addition to the modifiers; every
other pairing, in particular an EmptyElement target or an EmptyElement
addition, returns the copy of the target unchanged. -/
theorem add_dispatch (s m : Nat) (b A : ENode) (ms cs : List ENode) :
    (isElement A = true →
      add (.basic s) A = .composite [.basic s, A] ∧
      add (.modified b ms) A = .composite [.modified b ms, A] ∧
      add (.composite cs) A = .composite (cs ++ [A])) ∧
    (isModifier A = true →
      add (.basic s) A = .modified (.basic s) [A] ∧
      add (.composite cs) A = .modified (.composite cs) [A] ∧
      add (.modified b ms) A = .modified b (ms ++ [A])) ∧
    add .empty A = .empty ∧
    add (.modifier m) A = .modifier m ∧
    (A = .empty →
      add (.basic s) A = .basic s ∧
      add (.composite cs) A = .composite cs ∧
      add (.modified b ms) A = .modified b ms) := by
  refine ⟨fun hA => ?_, fun hA => ?_, ?_, ?_, fun hA => ?_⟩
  · cases A <;> simp_all [add, isBasic, isModified, isComposite, isElement, isModifier]
  · cases A <;> simp_all [add, isBasic, isModified, isComposite, isElement, isModifier]
  · cases A <;> simp [add, isBasic, isModified, isComposite, isElement, isModifier]
  · cases A <;> simp [add, isBasic, isModified, isComposite, isElement, isModifier]
  · subst hA
    simp [add, isBasic, isModified, isComposite, isElement, isModifier]

/-- Witness for C7: the dispatch theorem applied at the concrete pair of
the spec, adding Basic 1 to Basic 0 yields the two-child Composite. -/
theorem add_dispatch_witness :
    isElement (ENode.basic 1) = true ∧
    add (.basic 0) (.basic 1) = .composite [.basic 0, .basic 1] :=
  ⟨rfl, ((add_dispatch 0 0 ENode.empty (ENode.basic 1) [] []).1 rfl).1⟩

/-- C8. The operation `remove` returns EmptyElement on every node of
every shape and cannot fail. -/
theorem remove_always_empty (E : ENode) : remove E = .empty := rfl

/-- C10. The if/elif chain of `transform` is not total: a node that is
not structurally equal to the locus and is an instance of none of
BasicElement, ElementModifier, ModifiedElement or CompositeElement,
which in the closed node family means EmptyElement, matches no branch,
and the function returns None rather than an Element. -/
theorem transform_fallthrough_none (E : ENode) (op : PyVal) (loc : ENode)
    (hne : E ≠ loc) (hb : isBasic E = false) (hm : isModifier E = false)
    (hmd : isModified E = false) (hc : isComposite E = false) :
    transform (.node E) op loc = .ok none := by
  cases E <;> simp_all [isBasic, isModifier, isModified, isComposite]
  rw [transform.eq_def]
  simp [hne]

/-- Witness for C10: transforming a bare EmptyElement with a locus it
does not equal returns None. -/
theorem transform_fallthrough_none_witness :
    ENode.empty ≠ ENode.basic 0 ∧
    isBasic ENode.empty = false ∧ isModifier ENode.empty = false ∧
    isModified ENode.empty = false ∧ isComposite ENode.empty = false ∧
    transform (.node .empty) opRemove (.basic 0) = .ok none :=
  ⟨by decide, rfl, rfl, rfl, rfl,
    transform_fallthrough_none ENode.empty opRemove (ENode.basic 0)
      (by decide) rfl rfl rfl rfl⟩

end PyRaven
